import Mathlib

/-
Verification of the deeplay (deeptorch) encoder/configuration layer.

The repository sources under verification are
  deeptorch/components/encoders.py  (Encoder, ConvolutionalEncoder, DenseEncoder)
  deeptorch/backbones/encoders.py   (Encoder2d)
The Config / Node / DeepTorchModule / LazyModule / ConvPoolBlock machinery is
imported by those files from sibling modules that are not part of the sources;
definitions for those parts are modelled from the specification and are marked
as such in their doc comments.  Everything else is translated directly from
the Python sources.
-/

/-- Payload a Config node may hold.  Modelled from the spec: each node of the
Config tree optionally holds a default scalar value, a target constructor
reference together with its keyword arguments, a populate rule (a function
from a repeat-index to a value, with a length), or a block-slot sequence
declaration (the Node DSL value such as layer >> activation >> pool). -/
inductive CLeaf where
  | scalar (v : Int)
  | ctor (name : String) (kwargs : List (String × Int))
  | populate (f : Nat → Int) (length : Nat)
  | nodeSpec (slots : List String)

/-- Modelled from the spec: a Config is a tree whose nodes are named
attributes; a node optionally holds a leaf payload and has named children.
Node paths are dot-addressable strings, modelled as lists of key segments. -/
inductive Config where
  | node (val : Option CLeaf) (children : List (String × Config))

/-- Leaf payload stored at this node. -/
def Config.val : Config → Option CLeaf
  | .node v _ => v

/-- Named children of this node. -/
def Config.children : Config → List (String × Config)
  | .node _ cs => cs

/-- The empty Config tree, Config() in the source. -/
def Config.empty : Config := .node none []

/-- First-match lookup of a key among named children. -/
def lookupKey (k : String) : List (String × Config) → Option Config
  | [] => none
  | (k2, c) :: rest => if k = k2 then some c else lookupKey k rest

/-- Remove every child carrying the given key. -/
def eraseKey (k : String) : List (String × Config) → List (String × Config)
  | [] => []
  | (k2, c) :: rest => if k2 = k then eraseKey k rest else (k2, c) :: eraseKey k rest

/-- Left-biased choice on optional values. -/
def optOr {α : Type} (a b : Option α) : Option α :=
  match a with
  | some v => some v
  | none => b

mutual

/-- Modelled from the spec: merge of an override Config over a base Config.
The merge returns a new tree, applied key-by-key recursively; a payload
present in the override replaces the base payload at that node, a payload
absent from the override retains the base payload.  Neither operand is
mutated: the function is pure and its result depends only on the operands. -/
def Config.merge : Config → Config → Config
  | .node vo co, .node vb cb => .node (optOr vo vb) (mergeChildren co cb)

/-- Key-by-key recursive merge of two child lists: children present in both
are merged recursively, children present in only one side are kept. -/
def mergeChildren : List (String × Config) → List (String × Config) → List (String × Config)
  | [], cb => cb
  | (k, c) :: co, cb =>
    match lookupKey k cb with
    | some c2 => (k, Config.merge c c2) :: mergeChildren co (eraseKey k cb)
    | none => (k, c) :: mergeChildren co cb

end

/-- The merge operation as the caller observes it: it returns the merged
tree together with the two operand trees as they stand after the call.
Merge builds a new tree and never writes to its operands, so the operands
handed back are the very trees that were passed in. -/
def Config.mergeOp (a b : Config) : Config × Config × Config :=
  (Config.merge a b, a, b)

/-- Path lookup in a Config tree: follow the key segments and return the
payload of the node reached, if any. -/
def Config.find : Config → List String → Option CLeaf
  | c, [] => c.val
  | c, k :: p =>
    match lookupKey k c.children with
    | some c2 => Config.find c2 p
    | none => none

/-- Replace the child with the given key, or append one if absent. -/
def replaceKey (k : String) (c : Config) : List (String × Config) → List (String × Config)
  | [] => [(k, c)]
  | (k2, c2) :: rest => if k = k2 then (k, c) :: rest else (k2, c2) :: replaceKey k c rest

/-- Modelled from the spec: the attribute-style Config DSL sets a payload at
a dot-addressable path, creating intermediate nodes as needed and keeping
every sibling and every child of the target node. -/
def Config.set : Config → List String → CLeaf → Config
  | c, [], v => .node (some v) c.children
  | c, k :: p, v =>
    .node c.val (replaceKey k (Config.set ((lookupKey k c.children).getD Config.empty) p v) c.children)

/-- Dot-joined rendering of a path, as it appears in error messages. -/
def pathStr (p : List String) : String := String.intercalate "." p

/-- Error raised when a required Config path has neither an override nor a
default anywhere in the resolution chain; it carries the unresolved path. -/
structure MissingConfigError where
  path : String

/-- Modelled from the spec: resolving a Config path returns its payload, or
fails with a MissingConfigError identifying that exact path string.  The
error is the immediate result of the call: there is no retry and no
recovery. -/
def Config.resolve (c : Config) (p : List String) : Except MissingConfigError CLeaf :=
  match c.find p with
  | some v => Except.ok v
  | none => Except.error ⟨pathStr p⟩

/-- Modelled from the spec: per-index resolution of a Config path while
block number i is being constructed.  A scalar payload resolves to itself;
a populate rule resolves lazily, its generator applied to the index, for
indices below its declared length. -/
def resolveValueAt (c : Config) (p : List String) (i : Nat) : Option Int :=
  match c.find p with
  | some (.scalar v) => some v
  | some (.populate f len) => if i < len then some (f i) else none
  | _ => none

/-- Encoder.defaults from the source:
Config().depth(4).blocks(Node("layer") >> Node("activation") >> Node("pool")). -/
def Encoder.defaults : Config :=
  (Config.empty.set ["depth"] (.scalar 4)).set
    ["blocks"] (.nodeSpec ["layer", "activation", "pool"])

/-- ConvolutionalEncoder.defaults from the source: the Encoder defaults
merged into a fresh Config, then the populate rule for layer.out_channels
(8 * 2 ^ i, length 8) and the LazyConv2d / ReLU / MaxPool2d slots. -/
def ConvolutionalEncoder.defaults : Config :=
  ((((Config.merge Config.empty Encoder.defaults).set
      ["blocks", "layer", "out_channels"] (.populate (fun i => 8 * 2 ^ i) 8)).set
      ["blocks", "layer"] (.ctor "LazyConv2d" [("kernel_size", 3), ("padding", 1)])).set
      ["blocks", "activation"] (.ctor "ReLU" [])).set
      ["blocks", "pool"] (.ctor "MaxPool2d" [("kernel_size", 2)])

/-- DenseEncoder.defaults from the source: the Encoder defaults merged into
a fresh Config, then the LazyLinear(out_features=128) / ReLU / Identity
slots. -/
def DenseEncoder.defaults : Config :=
  (((Config.merge Config.empty Encoder.defaults).set
      ["blocks", "layer"] (.ctor "LazyLinear" [("out_features", 128)])).set
      ["blocks", "activation"] (.ctor "ReLU" [])).set
      ["blocks", "pool"] (.ctor "Identity" [])

/-- An Encoder instance as the constructor leaves it: the resolved depth and
the list of blocks, each block represented by its index paired with the
Config sub-tree it is resolved from. -/
structure EncoderInst where
  depth : Nat
  blocks : List (Nat × Config)

/-- Modelled from the spec: create_many resolves the Config sub-tree with
the given name once per index in 0..count-1 and constructs one child per
index; a child is represented by its index paired with that sub-tree. -/
def create_many (cfg : Config) (name : String) (count : Nat) : List (Nat × Config) :=
  (List.range count).map (fun i => (i, (lookupKey name cfg.children).getD Config.empty))

/-- Encoder.__init__ from the source: the depth keyword is an instance-level
override merged over the class defaults (blocks=None adds no override);
depth is then resolved from the merged Config and blocks is created by
create_many with that depth.  The resolution of depth is modelled from the
spec (attr); a missing or non-scalar depth resolves to 0, a case the
theorems never rely on. -/
def Encoder.mk (defaults : Config) (depth : Nat) : EncoderInst :=
  let cfg := Config.merge (Config.empty.set ["depth"] (.scalar (Int.ofNat depth))) defaults
  let d := match cfg.find ["depth"] with
    | some (.scalar v) => v.toNat
    | _ => 0
  { depth := d, blocks := create_many cfg "blocks" d }

/-- Encoder.forward from the source: for block in self.blocks: x = block(x);
return x.  The built blocks are modelled as functions on the value domain. -/
def Encoder.forward {α : Type} (blocks : List (α → α)) (x : α) : α :=
  blocks.foldl (fun acc b => b acc) x

/-- Resolved layer.out_channels value of every block of a
ConvolutionalEncoder of the given depth, in block order. -/
def convOutChannels (depth : Nat) : List (Option Int) :=
  (Encoder.mk ConvolutionalEncoder.defaults depth).blocks.map
    (fun ic => resolveValueAt ic.2 ["layer", "out_channels"] ic.1)

/-- Modelled from the spec: the class-level defaults Config together with
the per-instance Configs of every Encoder instance constructed so far. -/
structure EncoderWorld where
  classDefaults : Config
  instances : List Config

/-- Modelled from the spec: constructing a new Encoder instance merges the
instance-level overrides over the shared class defaults and records the
resulting per-instance Config; the class defaults are only read. -/
def newInstance (o : Config) (w : EncoderWorld) : EncoderWorld :=
  { classDefaults := w.classDefaults,
    instances := w.instances ++ [Config.merge o w.classDefaults] }

/-- First-match lookup of a keyword argument. -/
def lookupKw (k : String) : List (String × Int) → Option Int
  | [] => none
  | (k2, v) :: rest => if k = k2 then some v else lookupKw k rest

/-- Modelled from the spec: shape behaviour of the external framework
constructors named by the DenseEncoder defaults.  LazyLinear maps a batch
of vectors of any width to vectors of width out_features, inferring the
input width lazily; ReLU and Identity preserve the shape.  Constructors
whose shape behaviour no claim needs are left unmodelled. -/
def ctorShape : String → List (String × Int) → List Int → Option (List Int)
  | "LazyLinear", kwargs, [b, _] =>
    (match lookupKw "out_features" kwargs with
     | some o => some [b, o]
     | none => none)
  | "ReLU", _, shape => some shape
  | "Identity", _, shape => some shape
  | _, _, _ => none

/-- Shape after the named slot of a block: the slot constructor is resolved
from the blocks sub-tree and its shape behaviour applied. -/
def slotShape (blocksCfg : Config) (slot : String) (shape : List Int) : Option (List Int) :=
  match blocksCfg.find [slot] with
  | some (.ctor name kwargs) => ctorShape name kwargs shape
  | _ => none

/-- Shape after one block: layer, then activation, then pool. -/
def blockShape (blocksCfg : Config) (shape : List Int) : Option (List Int) :=
  (slotShape blocksCfg "layer" shape).bind
    (fun s2 => (slotShape blocksCfg "activation" s2).bind
      (fun s3 => slotShape blocksCfg "pool" s3))

/-- Shape of an input threaded through every block of an encoder built from
the given defaults with the given depth. -/
def encoderShape (defaults : Config) (depth : Nat) (shape : List Int) : Option (List Int) :=
  (Encoder.mk defaults depth).blocks.foldl
    (fun acc ic => acc.bind (fun s => blockShape ic.2 s)) (some shape)

/-- One block of the non-Config construction path.  Modelled from the spec:
a ConvPoolBlock pairs one convolution with one pooling stage and is declared
from one output-channel count. -/
inductive LazyBlock where
  | convPoolBlock (channels_out : Int)

/-- A built framework module.  Every built object carries the allocation id
it received from the object store when it was constructed; the id models
Python object identity and the seed of the freshly initialized parameters of
that object. -/
inductive BuiltModule where
  | convPool (channels_out : Int) (objId : Nat)
  | sequential (entries : List BuiltModule) (objId : Nat)

/-- Allocation id of a built module. -/
def BuiltModule.objId : BuiltModule → Nat
  | .convPool _ i => i
  | .sequential _ i => i

/-- Allocation ids reachable in a built module: its own id and the ids of
its direct entries (built encoders are sequential composites of leaf
blocks, so this covers every allocated object). -/
def BuiltModule.ids : BuiltModule → List Nat
  | .convPool _ i => [i]
  | .sequential ms i => i :: ms.map BuiltModule.objId

/-- Modelled from the spec: ConvPoolBlock.build constructs a fresh
convolution-plus-pooling module, taking the next allocation id. -/
def LazyBlock.build : LazyBlock → Nat → BuiltModule × Nat
  | .convPoolBlock ch, s => (.convPool ch s, s + 1)

/-- An Encoder2d instance as the constructor leaves it: its declared list of
blocks. -/
structure Encoder2d where
  blocks : List LazyBlock

/-- Encoder2d.__init__ from the source.  The blocks argument is optional:
none models the default sentinel.  When blocks is left at the default the
constructor iterates over channels_out to declare one ConvPoolBlock per
output-channel count; when channels_out is also None the iteration fails
(Python TypeError: NoneType is not iterable) and no instance is produced.
When an explicit blocks list is supplied it is stored unchanged. -/
def Encoder2d.init (channels_out : Option (List Int)) (blocks : Option (List LazyBlock)) :
    Except String Encoder2d :=
  match blocks with
  | none =>
    match channels_out with
    | some chs => Except.ok ⟨chs.map (fun ch => .convPoolBlock ch)⟩
    | none => Except.error "TypeError: NoneType object is not iterable"
  | some bs => Except.ok ⟨bs⟩

/-- Build every declared block in declaration order, threading the
allocation state. -/
def buildBlocks : List LazyBlock → Nat → List BuiltModule × Nat
  | [], s => ([], s)
  | blk :: rest, s =>
    let ms := blk.build s
    let rec2 := buildBlocks rest ms.2
    (ms.1 :: rec2.1, rec2.2)

/-- Encoder2d.build from the source:
nn.Sequential(*[block.build() for block in self.blocks]).  Every block is
built in declaration order and the results are wrapped in one freshly
allocated sequential composite.  The function takes and returns the
instance together with the allocation state, so the theorems can speak
about the declared instance after the call. -/
def Encoder2d.build : Encoder2d × Nat → BuiltModule × (Encoder2d × Nat)
  | (e, s) =>
    let ms := buildBlocks e.blocks s
    (.sequential ms.1 ms.2, (e, ms.2 + 1))

theorem optOr_none_right {α : Type} (a : Option α) : optOr a none = a := by
  cases a <;> rfl

theorem optOr_none_left {α : Type} (b : Option α) : optOr none b = b := rfl

theorem lookupKey_eraseKey (k k2 : String) (l : List (String × Config)) :
    lookupKey k (eraseKey k2 l) = if k = k2 then none else lookupKey k l := by
  induction l with
  | nil => simp [eraseKey, lookupKey]
  | cons hd tl ih =>
    obtain ⟨k3, c⟩ := hd
    by_cases h3 : k3 = k2
    · subst h3
      by_cases h : k = k3
      · subst h
        simp [eraseKey, lookupKey, ih]
      · simp [eraseKey, lookupKey, h, ih]
    · by_cases h : k = k3
      · subst h
        simp [eraseKey, lookupKey, h3, ih]
      · simp [eraseKey, lookupKey, h3, h, ih]

theorem lookupKey_mergeChildren (k : String) (co cb : List (String × Config)) :
    lookupKey k (mergeChildren co cb) =
      match lookupKey k co with
      | some c =>
        some (match lookupKey k cb with
              | some c2 => Config.merge c c2
              | none => c)
      | none => lookupKey k cb := by
  induction co generalizing cb with
  | nil => simp [mergeChildren, lookupKey]
  | cons hd co ih =>
    obtain ⟨k2, c⟩ := hd
    by_cases h : k = k2
    · subst h
      cases hb : lookupKey k cb with
      | none => simp [mergeChildren, lookupKey, hb]
      | some c2 => simp [mergeChildren, lookupKey, hb]
    · cases hb : lookupKey k2 cb with
      | none =>
        cases ho : lookupKey k co with
        | none => simp [mergeChildren, lookupKey, h, hb, ho, ih]
        | some c0 => simp [mergeChildren, lookupKey, h, hb, ho, ih]
      | some c2 =>
        cases ho : lookupKey k co with
        | none => simp [mergeChildren, lookupKey, h, hb, ho, ih, lookupKey_eraseKey]
        | some c0 => simp [mergeChildren, lookupKey, h, hb, ho, ih, lookupKey_eraseKey]

/-- Central merge/lookup interplay: looking up any path in a merged tree
yields the override payload when present, and the base payload otherwise. -/
theorem find_merge (a b : Config) (p : List String) :
    Config.find (Config.merge a b) p = optOr (Config.find a p) (Config.find b p) := by
  induction p generalizing a b with
  | nil =>
    obtain ⟨vo, co⟩ := a
    obtain ⟨vb, cb⟩ := b
    simp [Config.merge, Config.find, Config.val]
  | cons k p ih =>
    obtain ⟨vo, co⟩ := a
    obtain ⟨vb, cb⟩ := b
    show Config.find (Config.merge (.node vo co) (.node vb cb)) (k :: p) = _
    rw [Config.merge]
    simp only [Config.find, Config.children, lookupKey_mergeChildren]
    cases ho : lookupKey k co with
    | none =>
      cases hb : lookupKey k cb with
      | none => rfl
      | some c2 => simp [optOr]
    | some c =>
      cases hb : lookupKey k cb with
      | none => simp [optOr_none_right]
      | some c2 => simp [ih]

theorem merge_empty_left (c : Config) : Config.merge Config.empty c = c := by
  cases c with
  | node vb cb =>
    show Config.merge (.node none []) (.node vb cb) = _
    rw [Config.merge]
    simp [mergeChildren, optOr]

theorem convDefaults_eq :
    ConvolutionalEncoder.defaults =
      .node none [
        ("depth", .node (some (.scalar 4)) []),
        ("blocks", .node (some (.nodeSpec ["layer", "activation", "pool"])) [
          ("layer", .node (some (.ctor "LazyConv2d" [("kernel_size", 3), ("padding", 1)])) [
            ("out_channels", .node (some (.populate (fun i => 8 * 2 ^ i) 8)) [])]),
          ("activation", .node (some (.ctor "ReLU" [])) []),
          ("pool", .node (some (.ctor "MaxPool2d" [("kernel_size", 2)])) [])])] := by
  unfold ConvolutionalEncoder.defaults
  rw [merge_empty_left]
  rfl

theorem denseDefaults_eq :
    DenseEncoder.defaults =
      .node none [
        ("depth", .node (some (.scalar 4)) []),
        ("blocks", .node (some (.nodeSpec ["layer", "activation", "pool"])) [
          ("layer", .node (some (.ctor "LazyLinear" [("out_features", 128)])) []),
          ("activation", .node (some (.ctor "ReLU" [])) []),
          ("pool", .node (some (.ctor "Identity" [])) [])])] := by
  unfold DenseEncoder.defaults
  rw [merge_empty_left]
  rfl

theorem Encoder.mk_eq (defaults : Config) (depth : Nat) :
    Encoder.mk defaults depth =
      { depth := depth,
        blocks := (List.range depth).map
          (fun i => (i, (lookupKey "blocks" defaults.children).getD Config.empty)) } := by
  have hfind : (Config.merge (Config.empty.set ["depth"] (.scalar (Int.ofNat depth)))
      defaults).find ["depth"] = some (.scalar (Int.ofNat depth)) := by
    rw [find_merge]
    have h1 : (Config.empty.set ["depth"] (.scalar (Int.ofNat depth))).find ["depth"]
        = some (.scalar (Int.ofNat depth)) := rfl
    rw [h1]
    rfl
  have hch : lookupKey "blocks" (Config.merge
      (Config.empty.set ["depth"] (.scalar (Int.ofNat depth))) defaults).children
      = lookupKey "blocks" defaults.children := by
    obtain ⟨vb, cb⟩ := defaults
    show lookupKey "blocks" (Config.merge
      (.node none [("depth", .node (some (.scalar (Int.ofNat depth))) [])]) (.node vb cb)).children
      = lookupKey "blocks" cb
    rw [Config.merge]
    simp [Config.children, lookupKey_mergeChildren, lookupKey]
  simp only [Encoder.mk, create_many, hfind, hch]
  rfl

theorem buildBlocks_length (bs : List LazyBlock) (s : Nat) :
    (buildBlocks bs s).1.length = bs.length := by
  induction bs generalizing s with
  | nil => rfl
  | cons b rest ih =>
    cases b with
    | convPoolBlock ch => simp [buildBlocks, LazyBlock.build, ih]

theorem buildBlocks_range (bs : List LazyBlock) (s : Nat) :
    s ≤ (buildBlocks bs s).2 ∧
    ∀ m ∈ (buildBlocks bs s).1, s ≤ m.objId ∧ m.objId < (buildBlocks bs s).2 := by
  induction bs generalizing s with
  | nil =>
    refine ⟨Nat.le_refl s, ?_⟩
    intro m hm
    simp [buildBlocks] at hm
  | cons b rest ih =>
    cases b with
    | convPoolBlock ch =>
      have ih2 := ih (s + 1)
      have hred1 : (buildBlocks (LazyBlock.convPoolBlock ch :: rest) s).1
          = BuiltModule.convPool ch s :: (buildBlocks rest (s + 1)).1 := rfl
      have hred2 : (buildBlocks (LazyBlock.convPoolBlock ch :: rest) s).2
          = (buildBlocks rest (s + 1)).2 := rfl
      rw [hred1, hred2]
      refine ⟨Nat.le_trans (Nat.le_succ s) ih2.1, ?_⟩
      intro m hm
      rcases List.mem_cons.mp hm with hm1 | hm2
      · subst hm1
        exact ⟨Nat.le_refl s, Nat.lt_of_lt_of_le (Nat.lt_succ_self s) ih2.1⟩
      · have h3 := ih2.2 m hm2
        exact ⟨Nat.le_trans (Nat.le_succ s) h3.1, h3.2⟩

theorem convOutChannels_eq (depth : Nat) :
    convOutChannels depth
      = (List.range depth).map (fun i => if i < 8 then some ((8 : Int) * 2 ^ i) else none) := by
  unfold convOutChannels
  rw [Encoder.mk_eq, convDefaults_eq, List.map_map]
  rfl

/-- C1: for every integer depth > 0, constructing Encoder(depth=depth)
yields an instance whose blocks attribute is a sequence with exactly depth
elements, one block created per index by create_many. -/
theorem C1_encoder_blocks_length (depth : Nat) (h : 0 < depth) :
    (Encoder.mk Encoder.defaults depth).blocks.length = depth := by
  rw [Encoder.mk_eq]
  simp

/-- Witness for C1 at depth 3. -/
theorem C1_encoder_blocks_length_witness :
    0 < 3 ∧ (Encoder.mk Encoder.defaults 3).blocks.length = 3 :=
  ⟨by decide, C1_encoder_blocks_length 3 (by decide)⟩

/-- C2: the merge operation hands its two operands back unchanged;
re-merging the returned operands later yields a result identical to the
first merge; and the merged tree satisfies the merge invariant: every
payload present in the override replaces the corresponding base payload,
and a path absent from the override retains the base payload. -/
theorem C2_merge_pure (a b : Config) (p : List String) (v : CLeaf) :
    (Config.mergeOp a b).2.1 = a ∧
    (Config.mergeOp a b).2.2 = b ∧
    (Config.mergeOp (Config.mergeOp a b).2.1 (Config.mergeOp a b).2.2).1
      = (Config.mergeOp a b).1 ∧
    (Config.find a p = some v → Config.find (Config.mergeOp a b).1 p = some v) ∧
    (Config.find a p = none → Config.find (Config.mergeOp a b).1 p = Config.find b p) := by
  refine ⟨rfl, rfl, rfl, ?_, ?_⟩
  · intro h
    show Config.find (Config.merge a b) p = some v
    rw [find_merge, h]
    rfl
  · intro h
    show Config.find (Config.merge a b) p = Config.find b p
    rw [find_merge, h]
    rfl

/-- Witness for C2: an override payload at path x survives the merge. -/
theorem C2_merge_pure_witness :
    Config.find (Config.mergeOp (Config.empty.set ["x"] (.scalar 1))
      (Config.empty.set ["x"] (.scalar 2))).1 ["x"] = some (.scalar 1) :=
  (C2_merge_pure (Config.empty.set ["x"] (.scalar 1))
    (Config.empty.set ["x"] (.scalar 2)) ["x"] (.scalar 1)).2.2.2.1 rfl

/-- C3: a ConvolutionalEncoder of any depth consumes exactly the first
depth populate values: it has one resolved out_channels per block index
below depth, block index i (below the populate length 8) resolving to
8 * 2 ^ i; in particular depth 4 yields [8, 16, 32, 64]. -/
theorem C3_conv_out_channels (depth i : Nat) (hd : i < depth) (h8 : i < 8) :
    (convOutChannels depth).length = depth ∧
    (convOutChannels depth)[i]? = some (some (8 * 2 ^ i)) ∧
    convOutChannels 4 = [some 8, some 16, some 32, some 64] := by
  refine ⟨?_, ?_, ?_⟩
  · rw [convOutChannels_eq]
    simp
  · rw [convOutChannels_eq]
    simp [List.getElem?_map, List.getElem?_range, hd, h8]
  · rw [convOutChannels_eq]
    rfl

/-- Witness for C3 at depth 4, block index 2. -/
theorem C3_conv_out_channels_witness :
    (convOutChannels 4).length = 4 ∧ (convOutChannels 4)[2]? = some (some 32) :=
  ⟨(C3_conv_out_channels 4 2 (by decide) (by decide)).1,
   (C3_conv_out_channels 4 2 (by decide) (by decide)).2.1⟩

/-- C4: Encoder.forward applies the blocks in strict sequential order of
the blocks list: with no blocks the input is returned, the first block
receives the input, each later block receives the previous block's output,
and the final block's output is the returned value. -/
theorem C4_forward_sequential {α : Type} (blocks : List (α → α)) (b : α → α) (x : α) :
    Encoder.forward ([] : List (α → α)) x = x ∧
    Encoder.forward (b :: blocks) x = Encoder.forward blocks (b x) ∧
    Encoder.forward (blocks ++ [b]) x = b (Encoder.forward blocks x) := by
  refine ⟨rfl, rfl, ?_⟩
  simp [Encoder.forward, List.foldl_append]

/-- C5: resolving a Config path that has neither an override nor a default
anywhere fails with a MissingConfigError identifying that exact path
string, returned directly to the caller. -/
theorem C5_missing_config_error (c : Config) (p : List String)
    (h : Config.find c p = none) :
    Config.resolve c p = Except.error ⟨pathStr p⟩ := by
  simp [Config.resolve, h]

/-- Witness for C5 on an empty tree and the path blocks.layer.foo. -/
theorem C5_missing_config_error_witness :
    Config.resolve Config.empty ["blocks", "layer", "foo"]
      = Except.error ⟨"blocks.layer.foo"⟩ :=
  C5_missing_config_error Config.empty ["blocks", "layer", "foo"] rfl

/-- C6: Encoder2d with blocks unspecified declares exactly one
ConvPoolBlock per element of channels_out, in order; with an explicit
blocks list that list is stored unchanged; and build returns one
sequential composite holding one built module per declared block, in
declaration order. -/
theorem C6_encoder2d_init_build (chs : List Int) (h : chs ≠ []) :
    (Encoder2d.init (some chs) none
      = Except.ok ⟨chs.map (fun ch => LazyBlock.convPoolBlock ch)⟩) ∧
    (∀ co bs, Encoder2d.init co (some bs) = Except.ok ⟨bs⟩) ∧
    (∀ e s, (Encoder2d.build (e, s)).1
        = BuiltModule.sequential (buildBlocks e.blocks s).1 (buildBlocks e.blocks s).2 ∧
      ((buildBlocks e.blocks s).1).length = e.blocks.length) :=
  ⟨rfl, fun _ _ => rfl, fun e s => ⟨rfl, buildBlocks_length e.blocks s⟩⟩

/-- Witness for C6 with channel counts [3, 5]. -/
theorem C6_encoder2d_init_build_witness :
    Encoder2d.init (some [3, 5]) none
      = Except.ok ⟨[LazyBlock.convPoolBlock 3, LazyBlock.convPoolBlock 5]⟩ :=
  (C6_encoder2d_init_build [3, 5] (by decide)).1

/-- C7: calling build twice on the same declared Encoder2d instance leaves
the declared blocks list unchanged after each call, raises no error, and
returns two sequential composites that are distinct objects (different
allocation ids, hence not equal) whose reachable modules carry pairwise
different allocation ids, so their parameters are independently
initialized and nothing is memoized or shared. -/
theorem C7_build_twice_distinct (e : Encoder2d) (s0 : Nat) :
    (Encoder2d.build (e, s0)).2.1 = e ∧
    (Encoder2d.build ((Encoder2d.build (e, s0)).2)).2.1 = e ∧
    (Encoder2d.build (e, s0)).1.objId
      ≠ (Encoder2d.build ((Encoder2d.build (e, s0)).2)).1.objId ∧
    (Encoder2d.build (e, s0)).1 ≠ (Encoder2d.build ((Encoder2d.build (e, s0)).2)).1 ∧
    (∀ i1 ∈ (Encoder2d.build (e, s0)).1.ids,
      ∀ i2 ∈ (Encoder2d.build ((Encoder2d.build (e, s0)).2)).1.ids, i1 ≠ i2) := by
  have hA := buildBlocks_range e.blocks s0
  have hB := buildBlocks_range e.blocks ((buildBlocks e.blocks s0).2 + 1)
  have hne : (Encoder2d.build (e, s0)).1.objId
      ≠ (Encoder2d.build ((Encoder2d.build (e, s0)).2)).1.objId := by
    show (buildBlocks e.blocks s0).2
      ≠ (buildBlocks e.blocks ((buildBlocks e.blocks s0).2 + 1)).2
    omega
  refine ⟨rfl, rfl, hne, fun heq => hne (congrArg BuiltModule.objId heq), ?_⟩
  intro i1 hi1 i2 hi2
  have hids1 : (Encoder2d.build (e, s0)).1.ids
      = (buildBlocks e.blocks s0).2
        :: ((buildBlocks e.blocks s0).1).map BuiltModule.objId := rfl
  have hids2 : (Encoder2d.build ((Encoder2d.build (e, s0)).2)).1.ids
      = (buildBlocks e.blocks ((buildBlocks e.blocks s0).2 + 1)).2
        :: ((buildBlocks e.blocks ((buildBlocks e.blocks s0).2 + 1)).1).map
            BuiltModule.objId := rfl
  rw [hids1] at hi1
  rw [hids2] at hi2
  have hb1 : i1 ≤ (buildBlocks e.blocks s0).2 := by
    rcases List.mem_cons.mp hi1 with h1 | h1
    · omega
    · obtain ⟨m, hm, hmeq⟩ := List.mem_map.mp h1
      have h4 := hA.2 m hm
      omega
  have hb2 : (buildBlocks e.blocks s0).2 + 1 ≤ i2 := by
    rcases List.mem_cons.mp hi2 with h2 | h2
    · omega
    · obtain ⟨m, hm, hmeq⟩ := List.mem_map.mp h2
      have h4 := hB.2 m hm
      omega
  omega

/-- C8: constructing a new Encoder instance with an instance-level override
of a Config path changes neither the shared class-level defaults Config
nor any already constructed sibling instance, so the sibling's resolution
of that same path is unchanged. -/
theorem C8_instance_isolation (w : EncoderWorld) (o : Config) (j : Nat) (p : List String)
    (h : j < w.instances.length) :
    (newInstance o w).classDefaults = w.classDefaults ∧
    (newInstance o w).instances[j]? = w.instances[j]? ∧
    ((newInstance o w).instances[j]?).map (fun c => Config.find c p)
      = (w.instances[j]?).map (fun c => Config.find c p) := by
  have hj : (newInstance o w).instances[j]? = w.instances[j]? := by
    show (w.instances ++ [Config.merge o w.classDefaults])[j]? = w.instances[j]?
    rw [List.getElem?_append_left h]
  exact ⟨rfl, hj, by rw [hj]⟩

/-- Witness for C8: one existing sibling, an override of
blocks.layer.out_channels supplied to a new instance. -/
theorem C8_instance_isolation_witness :
    (newInstance (Config.empty.set ["blocks", "layer", "out_channels"] (.scalar 5))
      ⟨Config.empty, [Config.empty]⟩).instances[0]?
      = (⟨Config.empty, [Config.empty]⟩ : EncoderWorld).instances[0]? :=
  (C8_instance_isolation ⟨Config.empty, [Config.empty]⟩
    (Config.empty.set ["blocks", "layer", "out_channels"] (.scalar 5)) 0
    ["blocks", "layer", "out_channels"] (by simp)).2.1

/-- C9: the DenseEncoder defaults resolve the layer slot to LazyLinear with
out_features 128, the activation slot to ReLU and the pool slot to
Identity; a DenseEncoder of depth 1 therefore maps a batch of flattened
vectors of any width to an output whose trailing dimension is 128. -/
theorem C9_dense_trailing_dim (b n : Int) :
    Config.find DenseEncoder.defaults ["blocks", "layer"]
      = some (.ctor "LazyLinear" [("out_features", 128)]) ∧
    Config.find DenseEncoder.defaults ["blocks", "activation"]
      = some (.ctor "ReLU" []) ∧
    Config.find DenseEncoder.defaults ["blocks", "pool"]
      = some (.ctor "Identity" []) ∧
    encoderShape DenseEncoder.defaults 1 [b, n] = some [b, 128] := by
  refine ⟨?_, ?_, ?_, ?_⟩
  · rw [denseDefaults_eq]
    rfl
  · rw [denseDefaults_eq]
    rfl
  · rw [denseDefaults_eq]
    rfl
  · unfold encoderShape
    rw [Encoder.mk_eq, denseDefaults_eq]
    rfl

/-- C10: Encoder2d with both channels_out and blocks left at their defaults
fails at construction, iterating over the None channels_out, and no
instance is produced. -/
theorem C10_encoder2d_default_fails :
    Encoder2d.init none none
      = Except.error "TypeError: NoneType object is not iterable" := rfl
